import Mathlib

/-!
Shallow embedding of the HTML-6X runtime (h6x-atomic-runtime.js and the
H6X Store runtime) in Lean 4, together with proofs about the claims of
the specification.

JavaScript values flowing through the runtime are JSON-like; we model
them with `JVal`.  Arrays and objects additionally carry an identity
tag (a natural number) modelling the JS heap reference, so that
reference equality (`===` on objects), `structuredClone` freshness and
in-place mutation can be expressed.  Scalars have no identity, exactly
as JS primitives are compared by value.
-/

namespace H6X

/-- JSON-like JavaScript value.  `arr`/`obj` carry an identity tag
modelling the object reference; fields of an object are kept in
insertion order, as JS objects do for string keys. -/
inductive JVal where
  | undefined : JVal
  | null : JVal
  | bool : Bool → JVal
  | num : Int → JVal
  | str : String → JVal
  | arr : Nat → List JVal → JVal
  | obj : Nat → List (String × JVal) → JVal
deriving Repr

/-- A JS object (string-keyed record) as an insertion-ordered association list. -/
abbrev JsObj := List (String × JVal)

/-- Lookup of a key in a JS object (first binding wins; a well-formed JS
object has one binding per key). -/
def jsLookup : JsObj → String → Option JVal
  | [], _ => none
  | (k, v) :: rest, key => if k = key then some v else jsLookup rest key

/-- Property read `o[key]` on a JS object: an absent key yields `undefined`. -/
def jsGet (o : JsObj) (key : String) : JVal :=
  (jsLookup o key).getD .undefined

/-- Assignment `o[key] = v` on a JS object: updates the existing binding in
place (keeping insertion order) or appends a new one. -/
def jsSet (o : JsObj) (key : String) (v : JVal) : JsObj :=
  if (o.map Prod.fst).contains key then
    o.map fun kv => if kv.1 = key then (key, v) else kv
  else
    o ++ [(key, v)]

/-- JS falsiness: `undefined`, `null`, `false`, `0`, and `""` are falsy
(`NaN` does not arise in this integer-valued model). -/
def jsFalsy : JVal → Bool
  | .undefined => true
  | .null => true
  | .bool b => !b
  | .num i => i == 0
  | .str s => s == ""
  | .arr _ _ => false
  | .obj _ _ => false

/-- JS strict equality `===`: same primitive value, or the same object
reference (identity tag) for arrays/objects. -/
def jsStrictEq : JVal → JVal → Bool
  | .undefined, .undefined => true
  | .null, .null => true
  | .bool a, .bool b => a == b
  | .num a, .num b => a == b
  | .str a, .str b => a == b
  | .arr i _, .arr j _ => i == j
  | .obj i _, .obj j _ => i == j
  | _, _ => false

/-- Truthiness of a nullable JS string (an element attribute):
`null` and the empty string are falsy. -/
def optTruthy : Option String → Bool
  | none => false
  | some s => s ≠ ""

/-! ### String helpers mirroring the JS string operations used by the runtime -/

/-- JS `\w` word character: ASCII letter, digit or underscore. -/
def isWordChar (c : Char) : Bool := c.isAlphanum || c == '_'

/-- JS `String.prototype.split` with a single-character separator, on
character lists.  `splitCh c []` is `[[]]`, matching `"".split(c)` = `[""]`. -/
def splitCh (c : Char) : List Char → List (List Char)
  | [] => [[]]
  | x :: xs =>
    match splitCh c xs with
    | [] => [[]]
    | h :: t => if x = c then [] :: h :: t else (x :: h) :: t

/-- JS `s.split(c)` for a one-character separator. -/
def jsSplit (c : Char) (s : String) : List String := (splitCh c s.data).map String.mk

/-- JS `String.prototype.trim` on character lists (whitespace here is the
ASCII whitespace of `Char.isWhitespace`; the runtime only trims markup text). -/
def trimL (l : List Char) : List Char :=
  ((l.dropWhile Char.isWhitespace).reverse.dropWhile Char.isWhitespace).reverse

/-- JS `s.trim()`. -/
def jsTrim (s : String) : String := ⟨trimL s.data⟩

/-- Consume an exact literal at the head of the input, returning the rest. -/
def expectLit : List Char → List Char → Option (List Char)
  | [], rest => some rest
  | _ :: _, [] => none
  | p :: ps, c :: cs => if c = p then expectLit ps cs else none

/-- Attempt of the regex `(\w+)\.filter\((\w+)=(\w+)\)` at one start
position.  Because every delimiter of the pattern (`.`, `(`, `=`, `)`) is a
non-word character, the greedy `\w+` groups never need backtracking: the
maximal word run followed by the literal delimiter is the only possible
match, so this function computes exactly the regex engine's result at this
position. -/
def matchFilterAt (l : List Char) : Option (List Char × List Char × List Char) :=
  let r1 := l.takeWhile isWordChar
  if r1.isEmpty then none else
    match expectLit ".filter(".data (l.dropWhile isWordChar) with
    | none => none
    | some rest2 =>
      let r2 := rest2.takeWhile isWordChar
      if r2.isEmpty then none else
        match rest2.dropWhile isWordChar with
        | '=' :: rest3 =>
          let r3 := rest3.takeWhile isWordChar
          if r3.isEmpty then none else
            match rest3.dropWhile isWordChar with
            | ')' :: _ => some (r1, r2, r3)
            | _ => none
        | _ => none

/-- JS `expr.match(/(\w+)\.filter\((\w+)=(\w+)\)/)`: leftmost match, scanning
start positions left to right. -/
def findFilter : List Char → Option (List Char × List Char × List Char)
  | [] => none
  | x :: xs =>
    match matchFilterAt (x :: xs) with
    | some r => some r
    | none => findFilter xs

/-- Attempt of the regex `(\w+)\.count` at one start position (same
no-backtracking argument as for `matchFilterAt`). -/
def matchCountAt (l : List Char) : Option (List Char) :=
  let r1 := l.takeWhile isWordChar
  if r1.isEmpty then none else
    match expectLit ".count".data (l.dropWhile isWordChar) with
    | some _ => some r1
    | none => none

/-- JS `expr.match(/(\w+)\.count/)`: leftmost match. -/
def findCount : List Char → Option (List Char)
  | [] => none
  | x :: xs =>
    match matchCountAt (x :: xs) with
    | some r => some r
    | none => findCount xs

/-! ### structuredClone, node identities, deep equality and mutation

`structuredClone` deep-copies a value; in our heap model the copy consists
of freshly allocated nodes.  The natural-number argument is the allocator:
all identity tags of the result are `≥` the input counter, so they are
disjoint from any value whose tags are below it. -/

mutual

/-- JS `structuredClone(v)`: a deep copy built from fresh nodes.  Returns
the copy together with the advanced allocation counter. -/
def structuredClone : Nat → JVal → JVal × Nat
  | n, .undefined => (.undefined, n)
  | n, .null => (.null, n)
  | n, .bool b => (.bool b, n)
  | n, .num i => (.num i, n)
  | n, .str s => (.str s, n)
  | n, .arr _ es => let p := cloneList n es; (.arr p.2 p.1, p.2 + 1)
  | n, .obj _ fs => let p := cloneFields n fs; (.obj p.2 p.1, p.2 + 1)

def cloneList : Nat → List JVal → List JVal × Nat
  | n, [] => ([], n)
  | n, v :: vs =>
    let p := structuredClone n v
    let q := cloneList p.2 vs
    (p.1 :: q.1, q.2)

def cloneFields : Nat → List (String × JVal) → List (String × JVal) × Nat
  | n, [] => ([], n)
  | n, (k, v) :: fs =>
    let p := structuredClone n v
    let q := cloneFields p.2 fs
    ((k, p.1) :: q.1, q.2)

end

mutual

/-- All identity tags (heap references) occurring in a value. -/
def idsOf : JVal → List Nat
  | .arr i es => i :: idsOfL es
  | .obj i fs => i :: idsOfF fs
  | _ => []

def idsOfL : List JVal → List Nat
  | [] => []
  | v :: vs => idsOf v ++ idsOfL vs

def idsOfF : List (String × JVal) → List Nat
  | [] => []
  | (_, v) :: fs => idsOf v ++ idsOfF fs

end

mutual

/-- Deep (structural) equality of JSON values, ignoring node identities:
the notion of "deeply equal" used by the specification. -/
def deepEq : JVal → JVal → Bool
  | .undefined, .undefined => true
  | .null, .null => true
  | .bool a, .bool b => a == b
  | .num a, .num b => a == b
  | .str a, .str b => a == b
  | .arr _ es, .arr _ fs => deepEqL es fs
  | .obj _ a, .obj _ b => deepEqF a b
  | _, _ => false

def deepEqL : List JVal → List JVal → Bool
  | [], [] => true
  | v :: vs, w :: ws => deepEq v w && deepEqL vs ws
  | _, _ => false

def deepEqF : List (String × JVal) → List (String × JVal) → Bool
  | [], [] => true
  | (k, v) :: fs, (k2, w) :: gs => k == k2 && deepEq v w && deepEqF fs gs
  | _, _ => false

end

mutual

/-- In-place mutation of the (array/object) node whose identity is `t`:
the node is replaced by `f` applied to it.  A value that does not contain
the node is unaffected — this is how "mutating a returned copy cannot
change the store's canonical value" is expressed. -/
def mutateAt (t : Nat) (f : JVal → JVal) : JVal → JVal
  | .arr i es => if i = t then f (.arr i es) else .arr i (mutateAtL t f es)
  | .obj i fs => if i = t then f (.obj i fs) else .obj i (mutateAtF t f fs)
  | v => v

def mutateAtL (t : Nat) (f : JVal → JVal) : List JVal → List JVal
  | [] => []
  | v :: vs => mutateAt t f v :: mutateAtL t f vs

def mutateAtF (t : Nat) (f : JVal → JVal) : List (String × JVal) → List (String × JVal)
  | [] => []
  | (k, v) :: fs => (k, mutateAt t f v) :: mutateAtF t f fs

end

/-- The identity tag of the root node (`none` for primitives, which have
no identity in JS). -/
def rootId : JVal → Option Nat
  | .arr i _ => some i
  | .obj i _ => some i
  | _ => none


/-! ### JS dynamic-semantics helpers used by the Store and the rule engine -/

/-- A thrown JS runtime error. -/
inductive JsErr where
  | typeError (msg : String)
deriving Repr

/-- JS `typeof v`. -/
def jsTypeof : JVal → String
  | .undefined => "undefined"
  | .null => "object"
  | .bool _ => "boolean"
  | .num _ => "number"
  | .str _ => "string"
  | .arr _ _ => "object"
  | .obj _ _ => "object"

/-- JS `Array.isArray(v)`. -/
def isArray : JVal → Bool
  | .arr _ _ => true
  | _ => false

/-- Numeric value of a list of decimal digits. -/
def digitsToNat (l : List Char) : Nat :=
  l.foldl (fun acc c => acc * 10 + (c.toNat - 48)) 0

/-- A string that is a canonical array index ("0", "1", ... without leading
zeros), as used by JS indexed property access. -/
def canonIndex (s : String) : Option Nat :=
  match s.data with
  | [] => none
  | c :: cs =>
    if (c :: cs).all Char.isDigit && (c ≠ '0' || cs.isEmpty) then
      some (digitsToNat (c :: cs))
    else none

/-- Generic association-list lookup (first binding wins). -/
def assocLookup {α : Type} : List (String × α) → String → Option α
  | [], _ => none
  | (k, v) :: rest, key => if k = key then some v else assocLookup rest key

/-- Generic association-list assignment: update in place or append. -/
def assocSet {α : Type} (o : List (String × α)) (key : String) (v : α) :
    List (String × α) :=
  if (o.map Prod.fst).contains key then
    o.map fun kv => if kv.1 = key then (key, v) else kv
  else
    o ++ [(key, v)]

/-- JS property read `v[key]` on an arbitrary value: throws a TypeError on
`undefined`/`null`; yields `undefined` on other primitives, except for the
`length` of strings and their indexed characters; arrays expose `length` and
their indexed elements; objects expose their fields. -/
def jsGetProp (v : JVal) (key : String) : Except JsErr JVal :=
  match v with
  | .undefined => .error (.typeError "Cannot read properties of undefined")
  | .null => .error (.typeError "Cannot read properties of null")
  | .bool _ => .ok .undefined
  | .num _ => .ok .undefined
  | .str s =>
    if key = "length" then .ok (.num s.length)
    else
      match canonIndex key with
      | some i =>
        match s.data[i]? with
        | some c => .ok (.str (String.mk [c]))
        | none => .ok .undefined
      | none => .ok .undefined
  | .arr _ es =>
    if key = "length" then .ok (.num es.length)
    else
      match canonIndex key with
      | some i => .ok (es[i]?.getD .undefined)
      | none => .ok .undefined
  | .obj _ fs => .ok (jsGet fs key)

/-! ### The Store (part_001: class Store) -/

/-- A registered schema object: only its `type` field is consulted by
`Store.validate`. -/
structure Schema where
  type : Option String
deriving Repr

/-- The Store's state: raw data collections, computed expressions, state
cells and registered schemas (all plain string-keyed records). -/
structure Store where
  data : JsObj
  computed : List (String × String)
  state : List (String × JVal)
  schemas : List (String × Schema)
deriving Repr

/-- Predicate evaluation of one element inside `data.filter(item => ...)`:
`item[key] === true` / `=== false` for the literals `true`/`false`, and
`item[key] === value` (string comparison) otherwise. -/
def evalFilterPred (key value : String) (item : JVal) : Except JsErr Bool := do
  let fv ← jsGetProp item key
  if value = "true" then pure (jsStrictEq fv (.bool true))
  else if value = "false" then pure (jsStrictEq fv (.bool false))
  else pure (jsStrictEq fv (.str value))

/-- JS `Array.prototype.filter`, with the predicate applied left to right and
the first thrown error propagating. -/
def filterElems (key value : String) : List JVal → Except JsErr (List JVal)
  | [] => .ok []
  | v :: vs => do
    let b ← evalFilterPred key value v
    let rest ← filterElems key value vs
    pure (if b then v :: rest else rest)

/-- Store.evalComputed: tries the filter form first, then the count form,
and otherwise returns null.  The new array produced by `filter` is a fresh
node, so the allocation counter is threaded through. -/
def evalComputed (st : Store) (n : Nat) (expr : String) : Except JsErr (JVal × Nat) :=
  match findFilter expr.data with
  | some (dn, key, value) =>
    let d := jsGet st.data (String.mk dn)
    if jsFalsy d then .ok (.null, n)
    else
      match d with
      | .arr _ es => do
        let res ← filterElems (String.mk key) (String.mk value) es
        pure (.arr n res, n + 1)
      | _ => .error (.typeError "data.filter is not a function")
  | none =>
    match findCount expr.data with
    | some dn =>
      match jsGet st.data (String.mk dn) with
      | .arr _ es => .ok (.num es.length, n)
      | _ => .ok (.num 0, n)
    | none => .ok (.null, n)

/-- The raw branch of Store.get: a falsy entry (in particular an absent one)
yields null with a logged warning, otherwise a deep clone of the stored
value is returned. -/
def Store.getRaw (st : Store) (n : Nat) (name : String) : Except JsErr (JVal × Nat) :=
  let d := jsGet st.data name
  if jsFalsy d then .ok (.null, n)
  else .ok (structuredClone n d)

/-- Store.get: a (truthy) computed entry is evaluated; otherwise the raw
entry is cloned and returned. -/
def Store.get (st : Store) (n : Nat) (name : String) : Except JsErr (JVal × Nat) :=
  match assocLookup st.computed name with
  | some e => if e ≠ "" then evalComputed st n e else Store.getRaw st n name
  | none => Store.getRaw st n name

/-- Store.validate: basic type checking of a payload against a schema;
a mismatch throws (`Error` with the given message). -/
def Store.validate (data : JVal) (schema : Schema) : Except String Bool :=
  if schema.type == some "array" && !isArray data then
    .error "Data must be an array"
  else if schema.type == some "object" && jsTypeof data != "object" then
    .error "Data must be an object"
  else
    .ok true

/-- Result of one Store.load call: the new store, the message logged by the
catch-all handler (if any), and the exception escaping to the caller —
always `none`, because the body is wrapped in try/catch. -/
structure LoadOutcome where
  store : Store
  logged : Option String
  thrown : Option String
deriving Repr

/-- Store.load, for one h6x-data node.  `parsed` stands for the outcome of
`JSON.parse(node.textContent.trim())` (an `Except` because parsing may
throw, which the catch-all handler also absorbs).  The asynchronous
IndexedDB persistence is fire-and-forget and does not affect the store, so
it is not modelled; `node.remove()` is DOM-only. -/
def Store.load (st : Store) (name : Option String) (schemaAttr : Option String)
    (computeAttr : Option String) (parsed : Except String JVal) : LoadOutcome :=
  let key := name.getD "null"
  if optTruthy computeAttr then
    { store := { st with computed := assocSet st.computed key (computeAttr.getD "") },
      logged := none, thrown := none }
  else
    match parsed with
    | .error e => { store := st, logged := some e, thrown := none }
    | .ok payload =>
      let schemaCheck : Except String Bool :=
        if optTruthy schemaAttr then
          match assocLookup st.schemas (schemaAttr.getD "") with
          | some sch => Store.validate payload sch
          | none => .ok true
        else .ok true
      match schemaCheck with
      | .error e => { store := st, logged := some e, thrown := none }
      | .ok _ =>
        { store := { st with data := jsSet st.data key payload },
          logged := none, thrown := none }

/-! ### JSON.stringify -/

/-- Join rendered pieces with commas. -/
def joinComma : List String → String
  | [] => ""
  | [s] => s
  | s :: s2 :: rest => s ++ "," ++ joinComma (s2 :: rest)

/-- Lower-case hexadecimal digit. -/
def hexDigit (n : Nat) : Char :=
  if n < 10 then Char.ofNat (48 + n) else Char.ofNat (87 + n)

/-- JSON escaping of a single character. -/
def jsonQuoteChar (c : Char) : List Char :=
  if c = '"' then ['\\', '"']
  else if c = '\\' then ['\\', '\\']
  else if c = '\n' then ['\\', 'n']
  else if c = '\r' then ['\\', 'r']
  else if c = '\t' then ['\\', 't']
  else if c = Char.ofNat 8 then ['\\', 'b']
  else if c = Char.ofNat 12 then ['\\', 'f']
  else if c.toNat < 32 then
    ['\\', 'u', '0', '0', hexDigit (c.toNat / 16), hexDigit (c.toNat % 16)]
  else [c]

/-- A JSON string literal for `s`. -/
def jsonQuote (s : String) : String :=
  ⟨'"' :: s.data.foldr (fun c acc => jsonQuoteChar c ++ acc) ['"']⟩

mutual

/-- JS `JSON.stringify(v)`: `none` models the `undefined` result (for a
top-level `undefined`); inside arrays `undefined` renders as `null`, and
object entries whose value is `undefined` are omitted. -/
def jsonStringify : JVal → Option String
  | .undefined => none
  | .null => some "null"
  | .bool b => some (if b then "true" else "false")
  | .num i => some (toString i)
  | .str s => some (jsonQuote s)
  | .arr _ es => some ("[" ++ joinComma (jsonArrItems es) ++ "]")
  | .obj _ fs => some ("\x7b" ++ joinComma (jsonObjFields fs) ++ "\x7d")

def jsonArrItems : List JVal → List String
  | [] => []
  | e :: rest => ((jsonStringify e).getD "null") :: jsonArrItems rest

def jsonObjFields : List (String × JVal) → List String
  | [] => []
  | (k, v) :: rest =>
    match jsonStringify v with
    | some sv => (jsonQuote k ++ ":" ++ sv) :: jsonObjFields rest
    | none => jsonObjFields rest

end

/-- The `JSON.stringify` of a plain object literal (as built by
`gatherProtonData`); always a string. -/
def stringifyObj (o : JsObj) : String :=
  "\x7b" ++ joinComma (jsonObjFields o) ++ "\x7d"

/-! ### The atomic runtime (h6x-atomic-runtime.js) -/

/-- The value attached to one parsed rule line: validate/transform lines
store a list of rule tokens, compute lines store the right-hand side as an
uninterpreted expression string. -/
inductive RuleVal where
  | strs (rules : List String)
  | expr (e : String)
deriving Repr

/-- A parsed rule set: a plain JS object mapping field names to rule values. -/
abbrev RuleSet := List (String × RuleVal)

/-- One line of a validate-kind block: `field: rule1, rule2, ...`.
Destructuring `[field, rulesStr] = line.split(':').map(trim)` leaves
`rulesStr` undefined when the line has no `:`; the guard `field && rulesStr`
then skips the line (and likewise when either part trims to empty). -/
def validateLine (rules : RuleSet) (line : String) : RuleSet :=
  match (jsSplit ':' line).map jsTrim with
  | [] => rules
  | field :: rest =>
    match rest.head? with
    | some rulesStr =>
      if field ≠ "" && rulesStr ≠ "" then
        assocSet rules field (.strs ((jsSplit ',' rulesStr).map jsTrim))
      else rules
    | none => rules

/-- One line of a compute-kind block: `name = expression`. -/
def computeLine (rules : RuleSet) (line : String) : RuleSet :=
  match (jsSplit '=' line).map jsTrim with
  | [] => rules
  | name :: rest =>
    match rest.head? with
    | some expression =>
      if name ≠ "" && expression ≠ "" then
        assocSet rules name (.expr expression)
      else rules
    | none => rules

/-- One line of a transform-kind block: `field: transform1, transform2, ...`. -/
def transformLine (rules : RuleSet) (line : String) : RuleSet :=
  match (jsSplit ':' line).map jsTrim with
  | [] => rules
  | field :: rest =>
    match rest.head? with
    | some transforms =>
      if field ≠ "" && transforms ≠ "" then
        assocSet rules field (.strs ((jsSplit ',' transforms).map jsTrim))
      else rules
    | none => rules

/-- NucleusManager.parseNeutronRules: line-oriented parsing whose shape
depends on the rule kind; any other kind yields the empty rule set.  Every
string operation used (split, trim, map) is total in JS, so the parse is a
total function. -/
def parseNeutronRules (content : String) (type : Option String) : RuleSet :=
  if type == some "validate" then (jsSplit '\n' content).foldl validateLine []
  else if type == some "compute" then (jsSplit '\n' content).foldl computeLine []
  else if type == some "transform" then (jsSplit '\n' content).foldl transformLine []
  else []

/-- A logic rule ("neutron"). -/
structure Neutron where
  id : String
  type : Option String
  rules : RuleSet
  weight : Nat
deriving Repr

/-- A data source ("proton").  The JS field `local` is a Lean keyword, so it
is called `localKey` here. -/
structure Proton where
  id : String
  source : Option String
  localKey : Option String
  cache : String
  persist : Option String
  fallback : Option String
  data : JVal
deriving Repr

/-- An event binding ("electron"); `method` already carries the
`|| 'GET'` default applied at extraction, `energy` is the ephemeral
energy state.  The JS field `on` is a Lean keyword, so it is called
`onEvent` here. -/
structure Electron where
  id : String
  onEvent : Option String
  action : Option String
  endpoint : Option String
  method : String
  redirect : Option String
  bond : Option String
  emit : Option String
  listen : Option String
  energy : String
deriving Repr

/-! #### Stability (AtomicKernel.parseAtom)

`neutrons.length / protons.length` is JS float division: with a positive
numerator and a zero denominator it yields `Infinity`.  `JsNum` models the
result of this division. -/

/-- A JS number that can be Infinity or NaN (the possible results of the
division of two counts). -/
inductive JsNum where
  | fin (q : ℚ)
  | inf
  | nan
deriving Repr, DecidableEq

/-- JS division of two (natural) counts. -/
def jsDivNat (a b : Nat) : JsNum :=
  if b = 0 then (if a = 0 then .nan else .inf) else .fin ((a : ℚ) / (b : ℚ))

/-- JS `x < c` for a finite literal `c`: false for Infinity and NaN. -/
def jsNumLt (x : JsNum) (c : ℚ) : Bool :=
  match x with
  | .fin q => decide (q < c)
  | .inf => false
  | .nan => false

/-- The stability ratio computed by parseAtom:
`neutrons.length > 0 ? neutrons.length / protons.length : 1.0`. -/
def stabilityCalc (protonCount neutronCount : Nat) : JsNum :=
  if 0 < neutronCount then jsDivNat neutronCount protonCount else .fin 1

/-- A parsed component ("atom") with its derived metrics. -/
structure Atom where
  name : String
  atomicNumber : Nat
  atomicMass : Nat
  stability : JsNum
  protons : List Proton
  neutrons : List Neutron
  electrons : List Electron
deriving Repr

/-- AtomicKernel.parseAtom, given the already-extracted particle lists:
returns the assembled atom and whether the (non-fatal, purely logged)
stability advisory fired.  The atom is assembled unconditionally — the
advisory never blocks parsing. -/
def parseAtom (name : String) (protons : List Proton) (neutrons : List Neutron)
    (electrons : List Electron) : Atom × Bool :=
  let atomicNumber := protons.length
  let atomicMass := protons.length + neutrons.length
  let stability := stabilityCalc protons.length neutrons.length
  let advisory := jsNumLt stability 1 && decide (atomicNumber > 2)
  ({ name := name, atomicNumber := atomicNumber, atomicMass := atomicMass,
     stability := stability, protons := protons, neutrons := neutrons,
     electrons := electrons }, advisory)

/-! #### NucleusManager.validate -/

mutual

/-- String coercion `String(v)` as performed by `regex.test(v)`:
arrays join their elements with commas (null/undefined joining as empty),
plain objects print as `[object Object]`. -/
def jsToString : JVal → String
  | .undefined => "undefined"
  | .null => "null"
  | .bool b => if b then "true" else "false"
  | .num i => toString i
  | .str s => s
  | .arr _ es => joinComma (jsToStringItems es)
  | .obj _ _ => "[object Object]"

def jsToStringItems : List JVal → List String
  | [] => []
  | e :: rest =>
    (match e with
     | .undefined => ""
     | .null => ""
     | _ => jsToString e) :: jsToStringItems rest

end

/-- The email regex `/^[^\s@]+@[^\s@]+\.[^\s@]+$/`: exactly one `@`, a
non-empty whitespace-free local part, and a whitespace-free domain that
contains a dot with at least one character on each side. -/
def isValidEmail (s : String) : Bool :=
  match splitCh '@' s.data with
  | [a, b] =>
    !a.isEmpty && a.all (fun c => !c.isWhitespace) &&
    !b.isEmpty && b.all (fun c => !c.isWhitespace) &&
    ((b.drop 1).dropLast.contains '.')
  | _ => false

/-- First run of decimal digits in a string: `rule.match(/\d+/)`. -/
def firstDigitRun : List Char → Option (List Char)
  | [] => none
  | c :: cs =>
    if c.isDigit then some (c :: cs.takeWhile Char.isDigit)
    else firstDigitRun cs

/-- JS `parseInt(rule.match(/\d+/)[0])`: a rule without digits makes `match`
return null, and reading `[0]` of null throws. -/
def parseIntFirstDigits (rule : String) : Except JsErr Nat :=
  match firstDigitRun rule.data with
  | some ds => .ok (digitsToNat ds)
  | none => .error (.typeError "Cannot read properties of null")

/-- Number coercion of a string (as needed by `<`): empty/whitespace is 0,
an optional sign followed by digits is that integer, anything else is NaN
(`none`; fractional forms do not arise in this model). -/
def strToInt (s : String) : Option Int :=
  match trimL s.data with
  | [] => some 0
  | '-' :: ds => if !ds.isEmpty && ds.all Char.isDigit then some (-(digitsToNat ds : Int)) else none
  | '+' :: ds => if !ds.isEmpty && ds.all Char.isDigit then some ((digitsToNat ds : Int)) else none
  | ds => if ds.all Char.isDigit then some ((digitsToNat ds : Int)) else none

/-- JS `v < b` for a numeric literal `b`, coercing the left operand
(comparisons on NaN are false; object/array coercion is not reachable from
the length reads performed by the rule engine on JSON field values). -/
def jsLtNum (v : JVal) (b : Nat) : Bool :=
  match v with
  | .undefined => false
  | .null => decide ((0 : Int) < (b : Int))
  | .bool bb => decide ((if bb then (1 : Int) else 0) < (b : Int))
  | .num a => decide (a < (b : Int))
  | .str s =>
    match strToInt s with
    | some a => decide (a < (b : Int))
    | none => false
  | .arr _ _ => false
  | .obj _ _ => false

/-- JS `s.startsWith(pre)` (on the character lists of the strings). -/
def strStartsWith (s pre : String) : Bool := (expectLit pre.data s.data).isSome

/-- One rule applied to one field value (the if/else-if chain in
NucleusManager.validate).  `minLength` rules read `value.length`, which
throws on an undefined (absent) or null value. -/
def applyRule (value : JVal) (errs : List String) (rule : String) :
    Except JsErr (List String) :=
  if rule = "required" && jsFalsy value then
    .ok (errs ++ ["This field is required"])
  else if rule = "email-format" && !isValidEmail (jsToString value) then
    .ok (errs ++ ["Invalid email format"])
  else if strStartsWith rule "minLength" then do
    let minLen ← parseIntFirstDigits rule
    let lv ← jsGetProp value "length"
    if jsLtNum lv minLen then .ok (errs ++ ["Minimum length is " ++ toString minLen])
    else .ok errs
  else .ok errs

/-- All rules of one field, left to right. -/
def applyRules (value : JVal) : List String → List String → Except JsErr (List String)
  | errs, [] => .ok errs
  | errs, r :: rs => do
    let errs' ← applyRule value errs r
    applyRules value errs' rs

/-- The `Object.entries(neutron.rules).forEach` loop of
NucleusManager.validate.  A compute-style entry would make the JS code call
`forEach` on a string, which throws. -/
def validateEntries (data : JsObj) :
    List (String × RuleVal) → List (String × List String) →
    Except JsErr (List (String × List String))
  | [], errors => .ok errors
  | (field, rv) :: rest, errors =>
    match rv with
    | .expr _ => .error (.typeError "rules.forEach is not a function")
    | .strs rs => do
      let fieldErrors ← applyRules (jsGet data field) [] rs
      let errors' := if fieldErrors.isEmpty then errors else assocSet errors field fieldErrors
      validateEntries data rest errors'

/-- A validation outcome: overall validity plus per-field error messages. -/
structure VResult where
  valid : Bool
  errors : List (String × List String)
deriving Repr

/-- NucleusManager.validate: apply a neutron's rules to a data object. -/
def NucleusManager.validate (data : JsObj) (neutron : Neutron) : Except JsErr VResult := do
  let errors ← validateEntries data neutron.rules []
  pure { valid := errors.isEmpty, errors := errors }

/-! #### ElectronShell: gathering, simplified validation, submit protocol -/

/-- ElectronShell.gatherProtonData: protons with a (truthy) local key
contribute `data[local] = proton.data`; all others contribute nothing. -/
def gatherProtonData (atom : Atom) : JsObj :=
  atom.protons.foldl
    (fun acc p =>
      if optTruthy p.localKey then jsSet acc (p.localKey.getD "") p.data else acc)
    []

/-- Substring test, JS `String.prototype.includes`. -/
def containsSub : List Char → List Char → Bool
  | [], sub => sub.isEmpty
  | x :: xs, sub => (expectLit sub (x :: xs)).isSome || containsSub xs sub

/-- One rule-set entry of the simplified validation in
ElectronShell.validateWithNeutrons: `rules.includes('required') &&
!data[field]` marks the field as a failed required field.  (On a
compute-style string value, JS `includes` is the substring test.) -/
def vwnEntry (data : JsObj) (acc : Bool × List (String × List String))
    (entry : String × RuleVal) : Bool × List (String × List String) :=
  let includesRequired :=
    match entry.2 with
    | .strs rs => rs.contains "required"
    | .expr e => containsSub e.data "required".data
  if includesRequired && jsFalsy (jsGet data entry.1) then
    (false, assocSet acc.2 entry.1 ["Required field"])
  else acc

/-- ElectronShell.validateWithNeutrons: every validate-kind neutron's rule
set is applied over the gathered data. -/
def validateWithNeutrons (data : JsObj) (atom : Atom) : VResult :=
  let r := atom.neutrons.foldl
    (fun acc n => if n.type == some "validate" then n.rules.foldl (vwnEntry data) acc else acc)
    (true, [])
  { valid := r.1, errors := r.2 }

/-- Observable steps of an event's action protocol, in temporal order:
completion of validation (with its outcome), an issued network call
(endpoint, method, JSON body), a navigation, an emitted signal. -/
inductive Event where
  | validated (valid : Bool)
  | network (endpoint method body : String)
  | navigated (url : Option String)
  | emitted (signal : String)
deriving Repr

/-- The network calls contained in a trace. -/
def netCalls : List Event → List (String × String × String)
  | [] => []
  | .network e m b :: rest => (e, m, b) :: netCalls rest
  | _ :: rest => netCalls rest

/-- ElectronShell.handleSubmit, as the trace of its observable steps.
`resp` is the network outcome (`none`: fetch rejected; `some ok`: a
response with the given `ok` flag), consumed only after the call is
issued. -/
def handleSubmit (e : Electron) (atom : Atom) (resp : Option Bool) : List Event :=
  if !optTruthy e.endpoint then []
  else
    let data := gatherProtonData atom
    let v := validateWithNeutrons data atom
    if v.valid then
      .validated true :: .network (e.endpoint.getD "") e.method (stringifyObj data) ::
        (match resp with
         | some true => if optTruthy e.redirect then [.navigated e.redirect] else []
         | _ => [])
    else [.validated false]

/-- ElectronShell.executeAction: dispatch on the action, then emit the
configured signal if any.  `handleValidation` runs validation and only
logs, contributing a validated step; `redirect` navigates unconditionally. -/
def executeAction (e : Electron) (atom : Atom) (resp : Option Bool) : List Event :=
  (match e.action with
   | some "login" => handleSubmit e atom resp
   | some "send" => handleSubmit e atom resp
   | some "submit" => handleSubmit e atom resp
   | some "validate" => [.validated (validateWithNeutrons (gatherProtonData atom) atom).valid]
   | some "redirect" => [.navigated e.redirect]
   | _ => [])
  ++ (if optTruthy e.emit then [.emitted (e.emit.getD "")] else [])

/-! ### Specification-side predicates

These definitions follow the wording of the specification (not the code);
the claim theorems relate the code's results to them. -/

/-- The spec's notion of the count of a collection: its element count when
it is an array, and 0 when it is missing or not sequence-like. -/
def collCount : Option JVal → Nat
  | some (.arr _ es) => es.length
  | _ => 0

/-- The value is an object (a record with fields). -/
def isObj : JVal → Bool
  | .obj _ _ => true
  | _ => false

/-- The spec's filter criterion for one element: the field named by the key
matches the literal, where `true`/`false` compare as booleans and any other
bare token compares as a string to the field value. -/
def specMatch (key value : String) : JVal → Bool
  | .obj _ fs =>
    (match jsLookup fs key with
     | some fv =>
       if value = "true" then jsStrictEq fv (.bool true)
       else if value = "false" then jsStrictEq fv (.bool false)
       else jsStrictEq fv (.str value)
     | none => false)
  | _ => false

/-- The resolved data of the last data source whose (truthy) local key is
`k`, if any: what `gatherProtonData` actually binds `k` to. -/
def lastLocalData (protons : List Proton) (k : String) : Option JVal :=
  protons.foldl
    (fun r p => if p.localKey = some k ∧ k ≠ "" then some p.data else r)
    none

/-! ### Concrete fixtures used by witnesses and counterexamples -/

/-- A data source with no attributes, as parsed from a bare proton tag. -/
def protonStub : Proton :=
  { id := "p0", source := none, localKey := none, cache := "memory",
    persist := none, fallback := none, data := .null }

/-- A validate-kind neutron with an empty rule block. -/
def neutronStub : Neutron :=
  { id := "n0", type := some "validate", rules := [], weight := 1 }

/-- The first element of the spec's example collection. -/
def userA : JVal := .obj 11 [("id", .num 1), ("active", .bool true)]

/-- The second element of the spec's example collection. -/
def userB : JVal := .obj 12 [("id", .num 2), ("active", .bool false)]

/-- The spec's example collection. -/
def usersVal : JVal := .arr 10 [userA, userB]

/-- A store holding the example `users` collection as raw data. -/
def stUsers : Store :=
  { data := [("users", usersVal)], computed := [], state := [], schemas := [] }

/-- A store whose `bad` collection contains a null element. -/
def stBad : Store :=
  { data := [("bad", .arr 7 [.null])], computed := [], state := [], schemas := [] }

/-- A store with an empty `tasks` collection. -/
def stTasks0 : Store :=
  { data := [("tasks", .arr 20 [])], computed := [], state := [], schemas := [] }

/-- A store with a 5-element `tasks` collection. -/
def stTasks5 : Store :=
  { data := [("tasks", .arr 21 [.num 1, .num 2, .num 3, .num 4, .num 5])],
    computed := [], state := [], schemas := [] }

/-- A store with a registered schema `s` declaring type `array`. -/
def storeWithSchema : Store :=
  { data := [], computed := [], state := [],
    schemas := [("s", { type := some "array" })] }

/-- A data source bound to local key `k` with value 1. -/
def protonK1 : Proton :=
  { id := "p0", source := none, localKey := some "k", cache := "memory",
    persist := none, fallback := none, data := .num 1 }

/-- A second data source bound to the same local key `k` with value 2. -/
def protonK2 : Proton :=
  { id := "p1", source := none, localKey := some "k", cache := "memory",
    persist := none, fallback := none, data := .num 2 }

/-- A remote-only data source (no local key). -/
def protonRemote : Proton :=
  { id := "p2", source := some "https://api/items", localKey := none,
    cache := "memory", persist := none, fallback := none, data := .num 9 }

/-- An atom whose first two data sources share the local key `k`. -/
def atomDup : Atom := (parseAtom "dup" [protonK1, protonK2, protonRemote] [] []).1

/-- A submit-class event binding with an endpoint. -/
def elecSubmit : Electron :=
  { id := "e0", onEvent := some "submit", action := some "submit",
    endpoint := some "/api/login", method := "POST", redirect := none,
    bond := none, emit := none, listen := none, energy := "ground" }

/-- A data source with local key `email` holding a filled-in value. -/
def protonEmail : Proton :=
  { id := "p0", source := none, localKey := some "email", cache := "memory",
    persist := none, fallback := none, data := .str "a@b.com" }

/-- The same data source with an empty value. -/
def protonEmailEmpty : Proton :=
  { id := "p0", source := none, localKey := some "email", cache := "memory",
    persist := none, fallback := none, data := .str "" }

/-- A validate-kind neutron requiring the `email` field. -/
def neutronReq : Neutron :=
  { id := "n0", type := some "validate",
    rules := [("email", .strs ["required"])], weight := 1 }

/-- A component whose gathered data passes its required-field validation. -/
def atomOk : Atom := (parseAtom "login" [protonEmail] [neutronReq] [elecSubmit]).1

/-- A component whose gathered data fails its required-field validation. -/
def atomFail : Atom :=
  (parseAtom "login" [protonEmailEmpty] [neutronReq] [elecSubmit]).1


/-! ## Theorems

First the general lemmas about the embedded operations, then one theorem
(with witness or counterexample) per claim of the specification. -/

/-! ### Freshness, deep equality and mutation-independence of structuredClone -/

mutual

theorem structuredClone_counter_le : ∀ n v, n ≤ (structuredClone n v).2
  | _, .undefined => le_refl _
  | _, .null => le_refl _
  | _, .bool _ => le_refl _
  | _, .num _ => le_refl _
  | _, .str _ => le_refl _
  | n, .arr _ es => by
    simpa [structuredClone] using Nat.le_succ_of_le (cloneList_counter_le n es)
  | n, .obj _ fs => by
    simpa [structuredClone] using Nat.le_succ_of_le (cloneFields_counter_le n fs)

theorem cloneList_counter_le : ∀ n l, n ≤ (cloneList n l).2
  | _, [] => le_refl _
  | n, v :: vs => by
    simpa [cloneList] using
      le_trans (structuredClone_counter_le n v) (cloneList_counter_le (structuredClone n v).2 vs)

theorem cloneFields_counter_le : ∀ n l, n ≤ (cloneFields n l).2
  | _, [] => le_refl _
  | n, (k, v) :: fs => by
    simpa [cloneFields] using
      le_trans (structuredClone_counter_le n v) (cloneFields_counter_le (structuredClone n v).2 fs)

end

mutual

theorem structuredClone_ids_ge : ∀ n v i, i ∈ idsOf (structuredClone n v).1 → n ≤ i
  | n, .arr _ es, i => by
    simp only [structuredClone, idsOf, List.mem_cons]
    rintro (rfl | h)
    · exact cloneList_counter_le n es
    · exact cloneList_ids_ge n es i h
  | n, .obj _ fs, i => by
    simp only [structuredClone, idsOf, List.mem_cons]
    rintro (rfl | h)
    · exact cloneFields_counter_le n fs
    · exact cloneFields_ids_ge n fs i h
  | _, .undefined, i => by simp [structuredClone, idsOf]
  | _, .null, i => by simp [structuredClone, idsOf]
  | _, .bool _, i => by simp [structuredClone, idsOf]
  | _, .num _, i => by simp [structuredClone, idsOf]
  | _, .str _, i => by simp [structuredClone, idsOf]

theorem cloneList_ids_ge : ∀ n l i, i ∈ idsOfL (cloneList n l).1 → n ≤ i
  | _, [], i => by simp [cloneList, idsOfL]
  | n, v :: vs, i => by
    simp only [cloneList, idsOfL, List.mem_append]
    rintro (h | h)
    · exact structuredClone_ids_ge n v i h
    · exact le_trans (structuredClone_counter_le n v)
        (cloneList_ids_ge (structuredClone n v).2 vs i h)

theorem cloneFields_ids_ge : ∀ n l i, i ∈ idsOfF (cloneFields n l).1 → n ≤ i
  | _, [], i => by simp [cloneFields, idsOfF]
  | n, (k, v) :: fs, i => by
    simp only [cloneFields, idsOfF, List.mem_append]
    rintro (h | h)
    · exact structuredClone_ids_ge n v i h
    · exact le_trans (structuredClone_counter_le n v)
        (cloneFields_ids_ge (structuredClone n v).2 fs i h)

end

mutual

theorem structuredClone_deepEq : ∀ n v, deepEq (structuredClone n v).1 v = true
  | _, .undefined => rfl
  | _, .null => rfl
  | _, .bool _ => by simp [structuredClone, deepEq]
  | _, .num _ => by simp [structuredClone, deepEq]
  | _, .str _ => by simp [structuredClone, deepEq]
  | n, .arr _ es => by simpa [structuredClone, deepEq] using cloneList_deepEq n es
  | n, .obj _ fs => by simpa [structuredClone, deepEq] using cloneFields_deepEq n fs

theorem cloneList_deepEq : ∀ n l, deepEqL (cloneList n l).1 l = true
  | _, [] => rfl
  | n, v :: vs => by
    simp [cloneList, deepEqL, structuredClone_deepEq n v,
      cloneList_deepEq (structuredClone n v).2 vs]

theorem cloneFields_deepEq : ∀ n l, deepEqF (cloneFields n l).1 l = true
  | _, [] => rfl
  | n, (k, v) :: fs => by
    simp [cloneFields, deepEqF, structuredClone_deepEq n v,
      cloneFields_deepEq (structuredClone n v).2 fs]

end

mutual

theorem mutateAt_not_mem : ∀ t f v, t ∉ idsOf v → mutateAt t f v = v
  | t, f, .arr i es => by
    simp only [idsOf, List.mem_cons, mutateAt]
    intro h
    rw [if_neg (fun hi => h (Or.inl hi.symm)), mutateAtL_not_mem t f es (fun hm => h (Or.inr hm))]
  | t, f, .obj i fs => by
    simp only [idsOf, List.mem_cons, mutateAt]
    intro h
    rw [if_neg (fun hi => h (Or.inl hi.symm)), mutateAtF_not_mem t f fs (fun hm => h (Or.inr hm))]
  | _, _, .undefined => fun _ => rfl
  | _, _, .null => fun _ => rfl
  | _, _, .bool _ => fun _ => rfl
  | _, _, .num _ => fun _ => rfl
  | _, _, .str _ => fun _ => rfl

theorem mutateAtL_not_mem : ∀ t f l, t ∉ idsOfL l → mutateAtL t f l = l
  | _, _, [] => fun _ => rfl
  | t, f, v :: vs => by
    simp only [idsOfL, List.mem_append, mutateAtL]
    intro h
    rw [mutateAt_not_mem t f v (fun hm => h (Or.inl hm)),
      mutateAtL_not_mem t f vs (fun hm => h (Or.inr hm))]

theorem mutateAtF_not_mem : ∀ t f l, t ∉ idsOfF l → mutateAtF t f l = l
  | _, _, [] => fun _ => rfl
  | t, f, (k, v) :: fs => by
    simp only [idsOfF, List.mem_append, mutateAtF]
    intro h
    rw [mutateAt_not_mem t f v (fun hm => h (Or.inl hm)),
      mutateAtF_not_mem t f fs (fun hm => h (Or.inr hm))]

end

/-! ### String splitting and regex-matcher lemmas -/

theorem splitCh_not_mem (c : Char) : ∀ l : List Char, c ∉ l → splitCh c l = [l]
  | [], _ => rfl
  | x :: xs, h => by
    have hx : ¬x = c := fun hh => h (hh ▸ List.mem_cons_self x xs)
    have hxs : c ∉ xs := fun hm => h (List.mem_cons_of_mem _ hm)
    simp [splitCh, splitCh_not_mem c xs hxs, hx]

theorem jsSplit_not_mem (c : Char) (s : String) (h : c ∉ s.data) : jsSplit c s = [s] := by
  simp [jsSplit, splitCh_not_mem c s.data h]

theorem takeWhile_word_app : ∀ (w : List Char) (x : Char) (rest : List Char),
    (∀ c ∈ w, isWordChar c = true) → isWordChar x = false →
    (w ++ x :: rest).takeWhile isWordChar = w ∧
      (w ++ x :: rest).dropWhile isWordChar = x :: rest
  | [], x, rest, _, hx => by simp [List.takeWhile, List.dropWhile, hx]
  | a :: w, x, rest, hw, hx => by
    have ha : isWordChar a = true := hw a (List.mem_cons_self _ _)
    have ih := takeWhile_word_app w x rest (fun c hc => hw c (List.mem_cons_of_mem _ hc)) hx
    simp [List.takeWhile_cons, List.dropWhile_cons, ha, ih.1, ih.2]

theorem expectLit_self : ∀ (pat rest : List Char), expectLit pat (pat ++ rest) = some rest
  | [], _ => rfl
  | p :: ps, rest => by simp [expectLit, expectLit_self ps rest]

theorem expectLit_mem : ∀ (pat l rest : List Char),
    expectLit pat l = some rest → ∀ c ∈ pat, c ∈ l
  | [], _, _, _, c, hc => absurd hc (List.not_mem_nil c)
  | p :: ps, [], rest, h, _, _ => by simp [expectLit] at h
  | p :: ps, a :: as, rest, h, c, hc => by
    rw [expectLit] at h
    by_cases hap : a = p
    · rw [if_pos hap] at h
      rcases List.mem_cons.mp hc with rfl | hc2
      · exact hap ▸ List.mem_cons_self a as
      · exact List.mem_cons_of_mem _ (expectLit_mem ps as rest h c hc2)
    · rw [if_neg hap] at h
      exact absurd h (by simp)

theorem matchFilterAt_paren : ∀ (l : List Char) r, matchFilterAt l = some r → '(' ∈ l := by
  intro l r h
  unfold matchFilterAt at h
  by_cases h1 : (l.takeWhile isWordChar).isEmpty
  · rw [if_pos h1] at h
    exact absurd h (by simp)
  · rw [if_neg h1] at h
    rcases he : expectLit ".filter(".data (l.dropWhile isWordChar) with _ | rest2
    · rw [he] at h
      exact absurd h (by simp)
    · have hp : '(' ∈ l.dropWhile isWordChar := expectLit_mem _ _ _ he '(' (by decide)
      exact (List.dropWhile_sublist _).mem hp

theorem findFilter_no_paren : ∀ l : List Char, '(' ∉ l → findFilter l = none
  | [], _ => rfl
  | x :: xs, h => by
    rw [findFilter]
    rcases hm : matchFilterAt (x :: xs) with _ | r
    · simpa using findFilter_no_paren xs (fun hx => h (List.mem_cons_of_mem _ hx))
    · exact absurd (matchFilterAt_paren _ _ hm) h

theorem findCount_wf (dn : List Char) (hne : dn ≠ [])
    (hw : ∀ c ∈ dn, isWordChar c = true) :
    findCount (dn ++ ".count".data) = some dn := by
  have hdata : (".count".data : List Char) = '.' :: "count".data := rfl
  have happ := takeWhile_word_app dn '.' "count".data hw (by decide)
  have hmatch : matchCountAt (dn ++ ".count".data) = some dn := by
    unfold matchCountAt
    rw [hdata, happ.1, happ.2, ← hdata]
    have hself : expectLit ".count".data (".count".data : List Char) = some [] := by
      simpa using expectLit_self ".count".data []
    rw [hself]
    simp [List.isEmpty_iff, hne]
  cases dn with
  | nil => exact absurd rfl hne
  | cons c cs =>
    simp only [List.cons_append] at hmatch ⊢
    rw [findCount, hmatch]

theorem matchFilterAt_wf (c k v : List Char) (hc : c ≠ []) (hk : k ≠ []) (hv : v ≠ [])
    (hcw : ∀ a ∈ c, isWordChar a = true) (hkw : ∀ a ∈ k, isWordChar a = true)
    (hvw : ∀ a ∈ v, isWordChar a = true) :
    matchFilterAt (c ++ ".filter(".data ++ k ++ '=' :: v ++ [')']) = some (c, k, v) := by
  have hfdata : (".filter(".data : List Char) = '.' :: "filter(".data := rfl
  have h1 := takeWhile_word_app c '.' ("filter(".data ++ (k ++ '=' :: v ++ [')']))
    hcw (by decide)
  have h2 : expectLit ".filter(".data
      ('.' :: ("filter(".data ++ (k ++ '=' :: v ++ [')'])))
      = some (k ++ '=' :: v ++ [')']) := by
    simpa [hfdata] using expectLit_self ".filter(".data (k ++ '=' :: v ++ [')'])
  have h3 := takeWhile_word_app k '=' (v ++ [')']) hkw (by decide)
  have h4 := takeWhile_word_app v ')' [] hvw (by decide)
  have harr : c ++ ".filter(".data ++ k ++ '=' :: v ++ [')'] =
      c ++ '.' :: ("filter(".data ++ (k ++ '=' :: v ++ [')'])) := by
    simp [hfdata]
  rw [matchFilterAt, harr, h1.1, h1.2, h2]
  simp only [List.isEmpty_iff, hc, if_neg, h3.1, h3.2, h4.1]
  have h4d : ((v ++ [')']).dropWhile isWordChar) = [')'] := h4.2
  simp [hc, hk, hv, h3.1, h3.2, h4.1, h4d, List.isEmpty_iff]

theorem findFilter_wf (c k v : List Char) (hc : c ≠ []) (hk : k ≠ []) (hv : v ≠ [])
    (hcw : ∀ a ∈ c, isWordChar a = true) (hkw : ∀ a ∈ k, isWordChar a = true)
    (hvw : ∀ a ∈ v, isWordChar a = true) :
    findFilter (c ++ ".filter(".data ++ k ++ '=' :: v ++ [')']) = some (c, k, v) := by
  have hmatch := matchFilterAt_wf c k v hc hk hv hcw hkw hvw
  cases c with
  | nil => exact absurd rfl hc
  | cons c0 c2 =>
    simp only [List.cons_append] at hmatch ⊢
    rw [findFilter, hmatch]

/-! ### Trace and association-list lemmas -/

theorem netCalls_append : ∀ a b : List Event, netCalls (a ++ b) = netCalls a ++ netCalls b
  | [], _ => rfl
  | .network e m bo :: rest, b => by
    simp [netCalls, netCalls_append rest b]
  | .validated _ :: rest, b => by simp [netCalls, netCalls_append rest b]
  | .navigated _ :: rest, b => by simp [netCalls, netCalls_append rest b]
  | .emitted _ :: rest, b => by simp [netCalls, netCalls_append rest b]

theorem jsLookup_map_upd_ne : ∀ (o : JsObj) (key k2 : String) (v : JVal), ¬k2 = key →
    jsLookup (o.map fun kv => if kv.1 = key then (key, v) else kv) k2 = jsLookup o k2
  | [], _, _, _, _ => rfl
  | (a, b) :: rest, key, k2, v, hne => by
    rw [List.map_cons]
    have hbeta : (if (a, b).1 = key then (key, v) else (a, b))
        = (if a = key then (key, v) else (a, b)) := rfl
    rw [hbeta]
    by_cases ha : a = key
    · subst ha
      rw [if_pos rfl, jsLookup, jsLookup]
      have hak2 : ¬a = k2 := fun h => hne h.symm
      rw [if_neg hak2, if_neg hak2]
      exact jsLookup_map_upd_ne rest a k2 v hne
    · rw [if_neg ha, jsLookup, jsLookup]
      by_cases hak2 : a = k2
      · rw [if_pos hak2, if_pos hak2]
      · rw [if_neg hak2, if_neg hak2]
        exact jsLookup_map_upd_ne rest key k2 v hne

theorem jsLookup_jsSet : ∀ (o : JsObj) (key k2 : String) (v : JVal),
    jsLookup (jsSet o key v) k2 = if k2 = key then some v else jsLookup o k2
  | [], key, k2, v => by
    by_cases h : k2 = key
    · subst h
      simp [jsSet, jsLookup]
    · simp [jsSet, jsLookup, h, Ne.symm h]
  | (a, b) :: rest, key, k2, v => by
    rw [jsSet]
    by_cases hcont : ((((a, b) :: rest).map Prod.fst).contains key) = true
    · rw [if_pos hcont, List.map_cons]
      have hbeta : (if (a, b).1 = key then (key, v) else (a, b))
          = (if a = key then (key, v) else (a, b)) := rfl
      rw [hbeta]
      by_cases ha : a = key
      · subst ha
        rw [if_pos rfl, jsLookup]
        by_cases hk2 : a = k2
        · rw [if_pos hk2, if_pos hk2.symm]
        · rw [if_neg hk2, if_neg (fun h : k2 = a => hk2 h.symm), jsLookup, if_neg hk2]
          exact jsLookup_map_upd_ne rest a k2 v (fun h : k2 = a => hk2 h.symm)
      · have hcr : ((rest.map Prod.fst).contains key) = true := by
          rw [List.map_cons, List.contains_cons, Bool.or_eq_true] at hcont
          rcases hcont with h | h
          · exact absurd (beq_iff_eq.mp h).symm ha
          · exact h
        have IH := jsLookup_jsSet rest key k2 v
        rw [jsSet, if_pos hcr] at IH
        rw [if_neg ha]
        by_cases hak2 : a = k2
        · have hk2key : ¬k2 = key := fun h => ha (hak2.trans h)
          rw [if_neg hk2key, jsLookup, if_pos hak2, jsLookup, if_pos hak2]
        · rw [jsLookup, if_neg hak2, IH]
          by_cases hk2key : k2 = key
          · rw [if_pos hk2key, if_pos hk2key]
          · rw [if_neg hk2key, if_neg hk2key, jsLookup, if_neg hak2]
    · have ha : ¬a = key := fun h => hcont (by
        rw [List.map_cons, List.contains_cons]
        simp [h])
      have hcr : ¬((rest.map Prod.fst).contains key) = true := fun h =>
        hcont (by
          rw [List.map_cons, List.contains_cons, h]
          simp)
      have IH := jsLookup_jsSet rest key k2 v
      rw [jsSet, if_neg hcr] at IH
      rw [if_neg hcont, List.cons_append]
      by_cases hak2 : a = k2
      · have hk2key : ¬k2 = key := fun h => ha (hak2.trans h)
        rw [jsLookup, if_pos hak2, if_neg hk2key, jsLookup, if_pos hak2]
      · rw [jsLookup, if_neg hak2, IH]
        by_cases hk2key : k2 = key
        · rw [if_pos hk2key, if_pos hk2key]
        · rw [if_neg hk2key, if_neg hk2key, jsLookup, if_neg hak2]

theorem gather_aux (k : String) : ∀ (ps : List Proton) (acc : JsObj) (r : Option JVal),
    jsLookup acc k = r →
    jsLookup
      (ps.foldl
        (fun acc p =>
          if optTruthy p.localKey then jsSet acc (p.localKey.getD "") p.data else acc)
        acc) k =
      ps.foldl (fun r p => if p.localKey = some k ∧ k ≠ "" then some p.data else r) r
  | [], acc, r, h => by simpa using h
  | p :: ps, acc, r, h => by
    rw [List.foldl_cons, List.foldl_cons]
    apply gather_aux k ps
    rcases hp : p.localKey with _ | s
    · have hcond : ¬((none : Option String) = some k ∧ ¬k = "") := fun hh =>
        Option.noConfusion hh.1
      rw [if_neg hcond]
      simpa [optTruthy] using h
    · by_cases hs : s = ""
      · subst hs
        have hcond : ¬((some "" : Option String) = some k ∧ ¬k = "") := fun hh =>
          hh.2 (Option.some.inj hh.1).symm
        rw [if_neg hcond]
        simpa [optTruthy] using h
      · have htr : optTruthy (some s) = true := by simp [optTruthy, hs]
        rw [htr]
        simp only [if_true, Option.getD]
        rw [jsLookup_jsSet, h]
        by_cases hks : k = s
        · have hcond : ((some s : Option String) = some k ∧ ¬k = "") :=
            ⟨congrArg some hks.symm, fun hke => hs (hks.symm.trans hke)⟩
          rw [if_pos hks, if_pos hcond]
        · have hcond : ¬((some s : Option String) = some k ∧ ¬k = "") := fun hh =>
            hks (Option.some.inj hh.1).symm
          rw [if_neg hks, if_neg hcond]

theorem evalFilterPred_obj (key value : String) (i : Nat) (fs : List (String × JVal)) :
    evalFilterPred key value (.obj i fs) = .ok (specMatch key value (.obj i fs)) := by
  have hred : evalFilterPred key value (.obj i fs) =
      (if value = "true" then Except.ok (jsStrictEq (jsGet fs key) (.bool true))
       else if value = "false" then Except.ok (jsStrictEq (jsGet fs key) (.bool false))
       else Except.ok (jsStrictEq (jsGet fs key) (.str value))) := rfl
  rw [hred]
  rcases h : jsLookup fs key with _ | fv
  · simp [specMatch, jsGet, h, jsStrictEq]
  · simp only [specMatch, jsGet, h, Option.getD]
    split_ifs <;> rfl

theorem filterElems_obj (key value : String) : ∀ es : List JVal,
    (∀ e ∈ es, isObj e = true) →
    filterElems key value es = .ok (es.filter (specMatch key value))
  | [], _ => rfl
  | e :: es, h => by
    have he : isObj e = true := h e (List.mem_cons_self _ _)
    have ih := filterElems_obj key value es (fun x hx => h x (List.mem_cons_of_mem _ hx))
    cases e with
    | obj i fs =>
      rw [filterElems, evalFilterPred_obj, ih, List.filter_cons]
      rfl
    | undefined => simp [isObj] at he
    | null => simp [isObj] at he
    | bool b => simp [isObj] at he
    | num n => simp [isObj] at he
    | str s => simp [isObj] at he
    | arr i l => simp [isObj] at he

theorem netCalls_resp_tail (e : Electron) (resp : Option Bool) :
    netCalls
      (match resp with
       | some true => if optTruthy e.redirect then [.navigated e.redirect] else []
       | _ => []) = [] := by
  rcases resp with _ | b
  · rfl
  · cases b
    · rfl
    · by_cases h : optTruthy e.redirect = true <;> simp [h, netCalls]

theorem netCalls_emit_tail (e : Electron) :
    netCalls (if optTruthy e.emit then [.emitted (e.emit.getD "")] else []) = [] := by
  by_cases h : optTruthy e.emit = true <;> simp [h, netCalls]

theorem handleSubmit_trace (e : Electron) (a : Atom) (resp : Option Bool) (ep : String)
    (hep : e.endpoint = some ep) (hne : ep ≠ "") :
    handleSubmit e a resp =
      .validated (validateWithNeutrons (gatherProtonData a) a).valid ::
        (if (validateWithNeutrons (gatherProtonData a) a).valid then
          .network ep e.method (stringifyObj (gatherProtonData a)) ::
            (match resp with
             | some true => if optTruthy e.redirect then [.navigated e.redirect] else []
             | _ => [])
         else []) := by
  rcases resp with _ | b
  · cases hv : (validateWithNeutrons (gatherProtonData a) a).valid <;>
      simp [handleSubmit, hep, optTruthy, hne, hv]
  · cases b <;> cases hv : (validateWithNeutrons (gatherProtonData a) a).valid <;>
      simp [handleSubmit, hep, optTruthy, hne, hv]


theorem evalComputed_filter_eq (st : Store) (n : Nat) (expr : String)
    (dn key value : List Char)
    (h : findFilter expr.data = some (dn, key, value)) :
    evalComputed st n expr =
      (if jsFalsy (jsGet st.data (String.mk dn)) then .ok (.null, n)
       else
         match jsGet st.data (String.mk dn) with
         | .arr _ es => do
             let res ← filterElems (String.mk key) (String.mk value) es
             pure (.arr n res, n + 1)
         | _ => .error (.typeError "data.filter is not a function")) := by
  rw [evalComputed, h]

theorem evalComputed_count_eq (st : Store) (n : Nat) (expr : String) (dn : List Char)
    (hf : findFilter expr.data = none) (hc : findCount expr.data = some dn) :
    evalComputed st n expr =
      (match jsGet st.data (String.mk dn) with
       | .arr _ es => .ok (.num es.length, n)
       | _ => .ok (.num 0, n)) := by
  rw [evalComputed, hf, hc]

/-! ## Claim theorems -/

/-- C1 (confirmed).  For every submit-class action (login/send/submit) on a
component with a (truthy) endpoint configured: if the simplified
validate-kind rule sets fail over the gathered data, zero network calls are
issued; if validation passes, exactly one network call is issued, whose
body is the gathered data serialized as JSON; and validation always
completes fully before the network call — its completed outcome is the
first step of the action's trace, the network call only appears later. -/
theorem submit_sequencing (e : Electron) (a : Atom) (resp : Option Bool) (ep : String)
    (hact : e.action = some "login" ∨ e.action = some "send" ∨ e.action = some "submit")
    (hep : e.endpoint = some ep) (hne : ep ≠ "") :
    ((validateWithNeutrons (gatherProtonData a) a).valid = false →
      netCalls (executeAction e a resp) = []) ∧
    ((validateWithNeutrons (gatherProtonData a) a).valid = true →
      netCalls (executeAction e a resp) =
        [(ep, e.method, stringifyObj (gatherProtonData a))]) ∧
    (∃ rest, executeAction e a resp =
      Event.validated (validateWithNeutrons (gatherProtonData a) a).valid :: rest) := by
  have hts := handleSubmit_trace e a resp ep hep hne
  have hexec : executeAction e a resp = handleSubmit e a resp ++
      (if optTruthy e.emit then [.emitted (e.emit.getD "")] else []) := by
    rcases hact with h | h | h <;> simp [executeAction, h]
  refine ⟨?_, ?_, ?_⟩
  · intro hv
    rw [hexec, netCalls_append, hts, hv]
    simp [netCalls, netCalls_emit_tail]
  · intro hv
    rw [hexec, netCalls_append, hts, hv]
    simp [netCalls, netCalls_resp_tail, netCalls_emit_tail]
  · rw [hexec, hts]
    exact ⟨_, List.cons_append _ _ _⟩

/-- Witness for C1: at the concrete failing component the trace holds no
network call; at the passing component exactly the one configured POST with
the gathered data as JSON body is issued. -/
theorem submit_sequencing_witness :
    netCalls (executeAction elecSubmit atomFail none) = [] ∧
    netCalls (executeAction elecSubmit atomOk (some true)) =
      [("/api/login", "POST", "\x7b\"email\":\"a@b.com\"\x7d")] :=
  ⟨(submit_sequencing elecSubmit atomFail none "/api/login"
      (Or.inr (Or.inr rfl)) rfl (by decide)).1 rfl,
   (submit_sequencing elecSubmit atomOk (some true) "/api/login"
      (Or.inr (Or.inr rfl)) rfl (by decide)).2.1 rfl⟩

/-- C2 (confirmed).  For a raw collection (array or object) registered under
a name not shadowed by a computed entry, Store.get returns the structured
clone of the stored value: deeply equal to it, not identity-equal to it
(different object reference), and sharing no node with it — so mutating any
node of the returned value leaves the store's canonical copy unchanged. -/
theorem store_get_deep_copy (st : Store) (n : Nat) (name : String) (v : JVal)
    (hc : assocLookup st.computed name = none)
    (hd : jsLookup st.data name = some v)
    (hcoll : (∃ i es, v = JVal.arr i es) ∨ (∃ i fs, v = JVal.obj i fs))
    (hids : ∀ i ∈ idsOf v, i < n) :
    Store.get st n name = .ok (structuredClone n v) ∧
    deepEq (structuredClone n v).1 v = true ∧
    jsStrictEq (structuredClone n v).1 v = false ∧
    (∀ t ∈ idsOf (structuredClone n v).1, ∀ f, mutateAt t f v = v) := by
  have hfalsy : jsFalsy v = false := by
    rcases hcoll with ⟨i, es, rfl⟩ | ⟨i, fs, rfl⟩ <;> rfl
  have hget : Store.get st n name = .ok (structuredClone n v) := by
    rw [Store.get, hc, Store.getRaw]
    simp [jsGet, hd, hfalsy]
  refine ⟨hget, structuredClone_deepEq n v, ?_, ?_⟩
  · rcases hcoll with ⟨i, es, rfl⟩ | ⟨i, fs, rfl⟩
    · have hi : i < n := hids i (by simp [idsOf])
      have hge : n ≤ (cloneList n es).2 := cloneList_counter_le n es
      simp only [structuredClone, jsStrictEq]
      simp only [beq_eq_false_iff_ne, ne_eq]
      omega
    · have hi : i < n := hids i (by simp [idsOf])
      have hge : n ≤ (cloneFields n fs).2 := cloneFields_counter_le n fs
      simp only [structuredClone, jsStrictEq]
      simp only [beq_eq_false_iff_ne, ne_eq]
      omega
  · intro t ht f
    apply mutateAt_not_mem
    intro hmem
    exact absurd (hids t hmem) (Nat.not_lt.mpr (structuredClone_ids_ge n v t ht))

/-- Witness for C2: the example users collection is returned as a fresh deep
copy. -/
theorem store_get_deep_copy_witness :
    Store.get stUsers 100 "users" = .ok (structuredClone 100 usersVal) ∧
    deepEq (structuredClone 100 usersVal).1 usersVal = true ∧
    jsStrictEq (structuredClone 100 usersVal).1 usersVal = false := by
  have h := store_get_deep_copy stUsers 100 "users" usersVal rfl rfl
    (Or.inl ⟨10, [userA, userB], rfl⟩) (by decide)
  exact ⟨h.1, h.2.1, h.2.2.1⟩

/-- C3 counterexample: over a collection containing a null element the
filter evaluation does not return the matching elements — it throws a
TypeError (reading a property of null), so the claim fails as universally
stated. -/
theorem filter_null_element_cex :
    evalComputed stBad 0 "bad.filter(a=b)" =
      .error (.typeError "Cannot read properties of null") := rfl

/-- C3 (corrected).  Amended claim: PROVIDED every element of the named
collection is an object, `<collection>.filter(<key>=<literal>)` returns
exactly the elements whose field named by the key matches the literal —
`true`/`false` comparing as booleans and any other bare token comparing as
a string — while an element that is null or undefined makes the evaluation
throw instead of returning (see the counterexample). -/
theorem filter_spec (st : Store) (n i : Nat) (c k v : String) (es : List JVal)
    (hc : c.data ≠ []) (hk : k.data ≠ []) (hv : v.data ≠ [])
    (hcw : ∀ a ∈ c.data, isWordChar a = true)
    (hkw : ∀ a ∈ k.data, isWordChar a = true)
    (hvw : ∀ a ∈ v.data, isWordChar a = true)
    (hd : jsLookup st.data c = some (.arr i es))
    (hobj : ∀ e ∈ es, isObj e = true) :
    evalComputed st n (c ++ ".filter(" ++ k ++ "=" ++ v ++ ")") =
      .ok (.arr n (es.filter (specMatch k v)), n + 1) := by
  have hdata : (c ++ ".filter(" ++ k ++ "=" ++ v ++ ")").data =
      c.data ++ ".filter(".data ++ k.data ++ "=".data ++ v.data ++ ")".data := by
    cases c
    cases k
    cases v
    rfl
  have hff : findFilter (c ++ ".filter(" ++ k ++ "=" ++ v ++ ")").data =
      some (c.data, k.data, v.data) := by
    rw [hdata]
    simpa [List.append_assoc] using
      findFilter_wf c.data k.data v.data hc hk hv hcw hkw hvw
  rw [evalComputed_filter_eq st n _ c.data k.data v.data hff]
  have heta : String.mk c.data = c := rfl
  have heta2 : String.mk k.data = k := rfl
  have heta3 : String.mk v.data = v := rfl
  rw [heta, heta2, heta3]
  have hjs : jsGet st.data c = .arr i es := by simp [jsGet, hd]
  rw [hjs]
  have hfalsy : jsFalsy (JVal.arr i es) = false := rfl
  rw [hfalsy, if_neg Bool.false_ne_true]
  show (do
      let res ← filterElems k v es
      pure (JVal.arr n res, n + 1) : Except JsErr (JVal × Nat)) =
    .ok (.arr n (es.filter (specMatch k v)), n + 1)
  rw [filterElems_obj k v es hobj]
  rfl

/-- Witness for C3 (the spec's concrete instance):
`users.filter(active=true)` over the two-user collection yields exactly the
first user. -/
theorem filter_spec_witness :
    evalComputed stUsers 100 "users.filter(active=true)" =
      .ok (.arr 100 [userA], 101) :=
  filter_spec stUsers 100 10 "users" "active" "true" [userA, userB]
    (by decide) (by decide) (by decide) (by decide) (by decide) (by decide)
    rfl (by decide)

/-- C4 counterexample: with 3 data sources and 0 rules the claim's
condition holds (0/3 < 1.0 and 3 > 2) but the advisory does not fire — the
code computes stability as 1.0 whenever the rule count is 0, because its
guard tests the rule count, not the source count. -/
theorem stability_advisory_cex :
    (parseAtom "demo" [protonStub, protonStub, protonStub] [] []).2 = false ∧
    ((0 : ℚ) / 3 < 1 ∧ (2 : Nat) < 3) :=
  ⟨rfl, by norm_num, by norm_num⟩

/-- C4 (corrected).  Amended claim: the advisory fires iff ruleCount > 0,
ruleCount/sourceCount < 1.0 and sourceCount > 2 (for ruleCount = 0 the
computed stability is 1.0 by the guard, so no advisory); it never fires
when sourceCount ≤ 2; and it never blocks parsing — the atom is assembled
from its parts unconditionally (rendering is outside the kernel). -/
theorem stability_advisory_amended (nm : String) (ps : List Proton)
    (ns : List Neutron) (es : List Electron) :
    ((parseAtom nm ps ns es).2 = true ↔
      (0 < ns.length ∧ (ns.length : ℚ) / (ps.length : ℚ) < 1 ∧ 2 < ps.length)) ∧
    (ps.length ≤ 2 → (parseAtom nm ps ns es).2 = false) ∧
    ((parseAtom nm ps ns es).1 =
      { name := nm, atomicNumber := ps.length, atomicMass := ps.length + ns.length,
        stability := stabilityCalc ps.length ns.length,
        protons := ps, neutrons := ns, electrons := es }) := by
  have hadv : (parseAtom nm ps ns es).2 =
      (jsNumLt (stabilityCalc ps.length ns.length) 1 && decide (ps.length > 2)) := rfl
  refine ⟨?_, ?_, rfl⟩
  · rw [hadv, stabilityCalc]
    by_cases hn : 0 < ns.length
    · rw [if_pos hn, jsDivNat]
      by_cases hp : ps.length = 0
      · rw [if_pos hp, if_neg (by omega)]
        simp [jsNumLt, hp]
      · rw [if_neg hp]
        simp [jsNumLt, hn]
    · rw [if_neg hn]
      simp [jsNumLt, hn]
  · intro hle
    rw [hadv]
    have hd : decide (ps.length > 2) = false := by
      simp only [decide_eq_false_iff_not]
      omega
    simp [hd]

/-- Witness for C4: the advisory fires for 3 sources and 1 rule, and is
silent for a single source. -/
theorem stability_advisory_amended_witness :
    (parseAtom "w4" [protonStub, protonStub, protonStub] [neutronStub] []).2 = true ∧
    (parseAtom "w4" [protonStub] [] []).2 = false :=
  ⟨(stability_advisory_amended "w4" [protonStub, protonStub, protonStub]
      [neutronStub] []).1.mpr (by norm_num),
   (stability_advisory_amended "w4" [protonStub] [] []).2.1 (by norm_num)⟩

/-- C5 counterexample: with 1 source and 0 rules the code's stability is
1.0 while the claim demands 0/1 = 0; with 0 sources and 1 rule the code's
stability is Infinity (JS division by zero) while the claim demands 1.0. -/
theorem stability_value_cex :
    (parseAtom "one" [protonStub] [] []).1.stability = .fin 1 ∧
    JsNum.fin 1 ≠ JsNum.fin ((0 : ℚ) / (1 : ℚ)) ∧
    (parseAtom "zero" [] [neutronStub] []).1.stability = .inf ∧
    JsNum.inf ≠ JsNum.fin 1 := by
  refine ⟨rfl, ?_, rfl, by decide⟩
  intro h
  rw [JsNum.fin.injEq] at h
  norm_num at h

/-- C5 (corrected).  Amended claim: stability is ruleCount/sourceCount only
when ruleCount > 0 and sourceCount > 0; it is 1.0 by the guard whenever
ruleCount = 0 (whatever the source count); and it is Infinity when
ruleCount > 0 and sourceCount = 0.  Parsing is total: the equations hold
for all counts, including components with zero sources, rules or events. -/
theorem stability_value_amended (nm : String) (ps : List Proton)
    (ns : List Neutron) (es : List Electron) :
    (ns.length = 0 → (parseAtom nm ps ns es).1.stability = .fin 1) ∧
    (0 < ns.length → 0 < ps.length →
      (parseAtom nm ps ns es).1.stability =
        .fin ((ns.length : ℚ) / (ps.length : ℚ))) ∧
    (0 < ns.length → ps.length = 0 →
      (parseAtom nm ps ns es).1.stability = .inf) := by
  have hst : (parseAtom nm ps ns es).1.stability =
      stabilityCalc ps.length ns.length := rfl
  refine ⟨?_, ?_, ?_⟩
  · intro h
    rw [hst, stabilityCalc, if_neg (by omega)]
  · intro h1 h2
    rw [hst, stabilityCalc, if_pos h1, jsDivNat, if_neg (by omega)]
  · intro h1 h2
    rw [hst, stabilityCalc, if_pos h1, jsDivNat, if_pos h2, if_neg (by omega)]

/-- Witness for C5: one rule over two sources gives stability 1/2; an
empty component gives the conventional 1.0. -/
theorem stability_value_amended_witness :
    (parseAtom "w5" [protonStub, protonStub] [neutronStub] []).1.stability =
      .fin ((1 : ℚ) / (2 : ℚ)) ∧
    (parseAtom "w5" [] [] []).1.stability = .fin 1 :=
  ⟨(stability_value_amended "w5" [protonStub, protonStub] [neutronStub] []).2.1
      (by norm_num) (by norm_num),
   (stability_value_amended "w5" [] [] []).1 rfl⟩

/-- C6 (code_bug).  At the failing input — empty data and the rule block
`password: minLength(8)` — NucleusManager.validate evaluates the
type-dependent rule on the undefined value and throws a TypeError reading
`.length`, instead of skipping it as the claim requires.  The second
conjunct shows the half of the claim the code honours: `required` on an
absent field accumulates an error (fails) rather than faulting. -/
theorem nm_validate_minlength_faults :
    NucleusManager.validate []
      { id := "n0", type := some "validate",
        rules := [("password", .strs ["minLength(8)"])], weight := 1 } =
      .error (.typeError "Cannot read properties of undefined") ∧
    NucleusManager.validate []
      { id := "n1", type := some "validate",
        rules := [("email", .strs ["required"])], weight := 1 } =
      .ok { valid := false, errors := [("email", ["This field is required"])] } :=
  ⟨rfl, rfl⟩

/-- C7 counterexample: loading a (non-array) object payload against the
registered array schema leaves the load call returning normally — the
ValidationError is caught inside load and only logged (`thrown = none`),
so it is NOT surfaced to the immediate caller; the store is unchanged and
holds no entry for the name. -/
theorem store_load_mismatch_cex :
    Store.load storeWithSchema (some "x") (some "s") none (.ok (.obj 0 [])) =
      { store := storeWithSchema, logged := some "Data must be an array",
        thrown := none } ∧
    jsLookup storeWithSchema.data "x" = none :=
  ⟨rfl, rfl⟩

/-- C7 (corrected).  Amended claim: a schema type mismatch makes the
registration fail with a ValidationError that is CAUGHT inside load and
logged — not propagated to the caller — and aborts the registration, so
the store is left entirely unchanged (in particular it gains no entry for
that name). -/
theorem store_load_mismatch_amended (st : Store) (nm sref : String) (payload : JVal)
    (sch : Schema) (e : String)
    (hs : sref ≠ "") (hlook : assocLookup st.schemas sref = some sch)
    (hval : Store.validate payload sch = .error e) :
    Store.load st (some nm) (some sref) none (.ok payload) =
      { store := st, logged := some e, thrown := none } := by
  have htr : optTruthy (some sref) = true := by simp [optTruthy, hs]
  simp [Store.load, optTruthy, htr, hs, hlook, hval]

/-- Witness for C7: the concrete mismatching load is logged-and-aborted. -/
theorem store_load_mismatch_amended_witness :
    Store.load storeWithSchema (some "y") (some "s") none (.ok (.obj 1 [])) =
      { store := storeWithSchema, logged := some "Data must be an array",
        thrown := none } :=
  store_load_mismatch_amended storeWithSchema "y" "s" (.obj 1 [])
    { type := some "array" } "Data must be an array" (by decide) rfl rfl

/-- C8 (confirmed).  `<collection>.count` evaluates to the element count of
the named collection, and to 0 when the collection is missing or not an
array (not sequence-like); the filter form cannot match a count expression
(no parenthesis), so the count branch applies. -/
theorem count_spec (st : Store) (n : Nat) (dn : String)
    (hne : dn.data ≠ []) (hw : ∀ a ∈ dn.data, isWordChar a = true) :
    evalComputed st n (dn ++ ".count") =
      .ok (.num (collCount (jsLookup st.data dn)), n) := by
  have hdata : (dn ++ ".count").data = dn.data ++ ".count".data := by
    cases dn
    rfl
  have hnoparen : '(' ∉ (dn ++ ".count").data := by
    rw [hdata]
    intro hmem
    rcases List.mem_append.mp hmem with h | h
    · exact absurd (hw '(' h) (by decide)
    · revert h
      decide
  have hff : findFilter (dn ++ ".count").data = none := findFilter_no_paren _ hnoparen
  have hfc : findCount (dn ++ ".count").data = some dn.data := by
    rw [hdata]
    exact findCount_wf dn.data hne hw
  rw [evalComputed_count_eq st n _ dn.data hff hfc]
  have heta : String.mk dn.data = dn := rfl
  rw [heta]
  rcases hl : jsLookup st.data dn with _ | val
  · simp [jsGet, hl, collCount]
  · cases val <;> simp [jsGet, hl, collCount]

/-- Witness for C8 (the spec's concrete instances): 0 over the empty tasks
collection, 5 over the 5-element one. -/
theorem count_spec_witness :
    evalComputed stTasks0 7 "tasks.count" = .ok (.num 0, 7) ∧
    evalComputed stTasks5 7 "tasks.count" = .ok (.num 5, 7) :=
  ⟨count_spec stTasks0 7 "tasks" (by decide) (by decide),
   count_spec stTasks5 7 "tasks" (by decide) (by decide)⟩

/-- C9 counterexample: two data sources share the local key k (data 1 and
2); the gathered object binds k to the LAST source's data, so it does not
map each source's local key to that source's resolved data (the first
source's data 1 is not bound).  The remote-only source contributes
nothing. -/
theorem gather_overwrite_cex :
    gatherProtonData atomDup = [("k", .num 2)] ∧
    protonK1.data = .num 1 ∧
    jsLookup (gatherProtonData atomDup) "k" ≠ some protonK1.data := by
  refine ⟨rfl, rfl, ?_⟩
  intro h
  have h2 := Option.some.inj h
  injection h2 with h3
  exact absurd h3 (by decide)

/-- C9 (corrected).  Amended claim: the gathered data object maps each
local key to the resolved data of the LAST data source (in document order)
carrying that (truthy) local key — later sources overwrite earlier ones —
and every data source without a local key contributes nothing. -/
theorem gather_spec (a : Atom) (k : String) :
    jsLookup (gatherProtonData a) k = lastLocalData a.protons k := by
  unfold gatherProtonData lastLocalData
  exact gather_aux k a.protons [] none rfl

/-- C10 (confirmed).  Rule parsing is total for every rule text and kind
(the embedding is a total function because every JS string operation used —
split, trim, map — is total); an unrecognized rule kind yields the empty
rule set; a validate- or transform-kind line with no ':' contributes no
entry, and a compute-kind line with no '=' contributes no entry. -/
theorem parse_rules_total_spec (content : String) (type : Option String) :
    (type ≠ some "validate" → type ≠ some "compute" → type ≠ some "transform" →
      parseNeutronRules content type = []) ∧
    (∀ (rs : RuleSet) (line : String), ':' ∉ line.data →
      validateLine rs line = rs ∧ transformLine rs line = rs) ∧
    (∀ (rs : RuleSet) (line : String), '=' ∉ line.data →
      computeLine rs line = rs) := by
  refine ⟨?_, ?_, ?_⟩
  · intro h1 h2 h3
    simp [parseNeutronRules, h1, h2, h3]
  · intro rs line h
    have hsplit := jsSplit_not_mem ':' line h
    constructor
    · simp [validateLine, hsplit]
    · simp [transformLine, hsplit]
  · intro rs line h
    simp [computeLine, jsSplit_not_mem '=' line h]

/-- Witness for C10: an unrecognized kind yields an empty rule set, and
separator-free lines contribute no entries. -/
theorem parse_rules_total_witness :
    parseNeutronRules "email: required" (some "security") = [] ∧
    validateLine [] "no separator here" = [] ∧
    computeLine [] "no equals here" = [] :=
  ⟨(parse_rules_total_spec "email: required" (some "security")).1
      (by decide) (by decide) (by decide),
   ((parse_rules_total_spec "x" none).2.1 [] "no separator here" (by decide)).1,
   (parse_rules_total_spec "x" none).2.2 [] "no equals here" (by decide)⟩


end H6X
